import Mathlib

/-!
Shallow embedding of the `oni-swr/pomodoro` terminal application.

The repository source under verification is `src/app.rs` (the `App`
controller: event dispatch, menu state machine, sound-file discovery).
The `pomodoro_tui::Pomodoro` timer engine is part of this repository but
its source is not in the excerpt; it is modelled from the specification
(§4.2 TimerEngine) and every such definition is marked
`Modelled from the spec:`.
-/

/-- Source: `pomodoro_tui::PomodoroState` (phase enumeration), used in
`src/app.rs` via `self.pomo.state()`. -/
inductive PomodoroState where
  | Work
  | Break
deriving DecidableEq, Repr

/-- Modelled from the spec: RunState enumeration {Running, Paused}
(§3 DATA MODEL); the `pomodoro_tui` crate source is not in the excerpt. -/
inductive RunState where
  | Running
  | Paused
deriving DecidableEq, Repr

/-- Modelled from the spec: a Duration is a (minutes, seconds) pair
(§3 DATA MODEL). Both components are natural numbers. -/
def Duration := Nat × Nat
deriving DecidableEq, Repr

/-- Modelled from the spec: the TimerEngine aggregate (§3 DATA MODEL);
the `pomodoro_tui::Pomodoro` struct source is not in the excerpt. -/
structure Pomodoro where
  phase : PomodoroState
  run_state : RunState
  work_duration : Duration
  break_duration : Duration
  work_remaining : Duration
  break_remaining : Duration
  auto_start : Bool
  sound_path : String
  no_sound : Bool
deriving DecidableEq, Repr

/-- Modelled from the spec: decrementing a countdown Duration by one
second, "borrowing a minute as 60 seconds when seconds underflow"
(§4.2 check_and_switch); never underflows below zero (§7). -/
def decrementDuration : Duration → Duration
  | (m, 0) => if m = 0 then (0, 0) else (m - 1, 59)
  | (m, s + 1) => (m, s)

/-- Modelled from the spec: `start_or_pause()` toggles RunState between
Running and Paused, no effect on remaining time (§4.2). -/
def start_or_pause (p : Pomodoro) : Pomodoro :=
  { p with run_state := match p.run_state with
      | RunState.Running => RunState.Paused
      | RunState.Paused => RunState.Running }

/-- Modelled from the spec: `reset()` sets both remaining Durations back
to their configured targets and forces RunState = Paused; phase
unchanged (§4.2). -/
def reset (p : Pomodoro) : Pomodoro :=
  { p with work_remaining := p.work_duration,
           break_remaining := p.break_duration,
           run_state := RunState.Paused }

/-- Modelled from the spec: `toggle_auto_start()` flips the `auto_start`
flag (§4.2). -/
def toggle_auto_start (p : Pomodoro) : Pomodoro :=
  { p with auto_start := !p.auto_start }

/-- Modelled from the spec: `set_work_duration(minutes)` sets the target
work Duration to (minutes, 0) and resets `work_remaining` to the new
target immediately (§4.2). -/
def set_work_duration (m : Nat) (p : Pomodoro) : Pomodoro :=
  { p with work_duration := (m, 0), work_remaining := (m, 0) }

/-- Modelled from the spec: `set_break_duration(minutes)` sets the target
break Duration to (minutes, 0) and resets `break_remaining` to the new
target immediately (§4.2). -/
def set_break_duration (m : Nat) (p : Pomodoro) : Pomodoro :=
  { p with break_duration := (m, 0), break_remaining := (m, 0) }

/-- Modelled from the spec: `extend_work_session(minutes)` sets phase back
to Work, `work_remaining = (minutes, 0)` (replacing the expired timer),
RunState = Running (§4.2). -/
def extend_work_session (m : Nat) (p : Pomodoro) : Pomodoro :=
  { p with phase := PomodoroState.Work,
           work_remaining := (m, 0),
           run_state := RunState.Running }

/-- Modelled from the spec: `set_sound(path)` replaces `sound_path`, no
validation (§4.2). -/
def set_sound (s : String) (p : Pomodoro) : Pomodoro :=
  { p with sound_path := s }

/-- Modelled from the spec: `check_and_switch() -> bool`, called on every
Tick (§4.2). If Paused, no-op returning false. If Running, decrement the
active phase's remaining Duration by one second; if it reaches zero
exactly on this call: Work switches to Break with RunState forced Paused
returning true; Break resets both countdowns, switches to Work, RunState
Running iff `auto_start`, returning false. Otherwise false. -/
def check_and_switch (p : Pomodoro) : Pomodoro × Bool :=
  match p.run_state with
  | RunState.Paused => (p, false)
  | RunState.Running =>
    match p.phase with
    | PomodoroState.Work =>
      let w := decrementDuration p.work_remaining
      if w = (0, 0) then
        ({ p with work_remaining := w,
                  phase := PomodoroState.Break,
                  run_state := RunState.Paused }, true)
      else
        ({ p with work_remaining := w }, false)
    | PomodoroState.Break =>
      let b := decrementDuration p.break_remaining
      if b = (0, 0) then
        ({ p with break_remaining := p.break_duration,
                  phase := PomodoroState.Work,
                  work_remaining := p.work_duration,
                  run_state := if p.auto_start then RunState.Running
                               else RunState.Paused }, false)
      else
        ({ p with break_remaining := b }, false)

/-- Source: `const DURATION_PRESETS: [u64; 11]` in `src/app.rs`. -/
def DURATION_PRESETS : List Nat := [2, 3, 4, 5, 10, 15, 20, 25, 30, 45, 60]

/-- Source: `enum MenuState` in `src/app.rs`. -/
inductive MenuState where
  | None
  | MainMenu
  | SelectWorkDuration
  | SelectBreakDuration
  | ExtendWorkSession
  | SelectSound
deriving DecidableEq, Repr

/-- Source: `event::KeyCode` as matched in `src/app.rs` (`Char`, `Up`,
`Down`, `Enter`, `Esc`; everything else falls to the wildcard arm). -/
inductive KeyCode where
  | Char : Char → KeyCode
  | Up
  | Down
  | Enter
  | Esc
  | Other
deriving DecidableEq, Repr

/-- Source: `enum Event` in `src/app.rs` (key events carry only the code
the handlers inspect). -/
inductive Event where
  | Key : KeyCode → Event
  | Tick
deriving DecidableEq, Repr

/-- Source: the `App` struct of `src/app.rs`, restricted to the fields the
dispatcher mutates (the mpsc channel endpoints carry no verified state). -/
structure App where
  pomo : Pomodoro
  exit : Bool
  hide_image : Bool
  menu_state : MenuState
  menu_selection : Nat
deriving DecidableEq, Repr

/-- A directory entry as observed by `App::get_sound_files`: the file name
within `sounds/`, and the result of `entry.file_type()` (`none` when the
call errs, `some b` with `b` = `is_file()`). -/
structure DirEntry where
  name : String
  fileType : Option Bool
deriving DecidableEq, Repr

/-- The filesystem as observed by `App::get_sound_files`: `none` when
`fs::read_dir("sounds")` fails (directory missing or unreadable),
otherwise the list of direct entries of `sounds/`. -/
def FsState := Option (List DirEntry)

/-- Source: `entry.path()` for a direct entry of the `sounds` directory. -/
def entryPath (e : DirEntry) : String := "sounds/" ++ e.name

/-- Splitting a character list on `.` (the semantics of
`String.splitOn "."`, stated over `data` so that it evaluates). -/
def splitOnDot : List Char → List (List Char)
  | [] => [[]]
  | c :: cs =>
    let rest := splitOnDot cs
    if c = '.' then [] :: rest
    else match rest with
      | [] => [[c]]
      | r :: rs => (c :: r) :: rs

/-- Source: `path.extension()` on a direct entry of `sounds/`: the portion
of the file name after the last `.`, none when there is no `.` or when
the only `.` is the leading one of a hidden file. -/
def rustExtension (name : String) : Option String :=
  let parts := splitOnDot name.data
  if parts.length < 2 then none
  else if parts.length = 2 ∧ parts.headD [] = [] then none
  else some (String.mk (parts.getLastD []))

/-- ASCII lowercasing of a string, character by character (the semantics
of `String.toLower`, stated over `data` so that it evaluates). -/
def strToLower (s : String) : String := ⟨s.data.map Char.toLower⟩

/-- Source: the extension filter of `App::get_sound_files`:
`ext.to_string_lossy().to_lowercase()` equal to `mp3`, `wav` or `ogg`. -/
def isAudioExt (ext : String) : Prop :=
  strToLower ext = "mp3" ∨ strToLower ext = "wav" ∨ strToLower ext = "ogg"

instance (ext : String) : Decidable (isAudioExt ext) := by
  unfold isAudioExt
  infer_instance

/-- Byte-lexicographic comparison of two character lists, mirroring the
ordering `Vec<PathBuf>::sort` uses on the paths of `App::get_sound_files`
(Rust compares the path bytes; on these paths that is exactly the
scalar-value order of the characters). -/
def lexLeB : List Char → List Char → Bool
  | [], _ => true
  | _ :: _, [] => false
  | a :: as, b :: bs =>
    if a.toNat < b.toNat then true
    else if b.toNat < a.toNat then false
    else lexLeB as bs

/-- The lexicographic path order of `App::get_sound_files`. -/
def pathLe (a b : String) : Prop := lexLeB a.data b.data = true

instance (a b : String) : Decidable (pathLe a b) := by
  unfold pathLe
  infer_instance

theorem lexLeB_total (a : List Char) : ∀ b, lexLeB a b = true ∨ lexLeB b a = true := by
  induction a with
  | nil => intro b; left; rfl
  | cons x xs ih =>
    intro b
    cases b with
    | nil => right; rfl
    | cons y ys =>
      by_cases h1 : x.toNat < y.toNat
      · left; simp [lexLeB, h1]
      · by_cases h2 : y.toNat < x.toNat
        · right; simp [lexLeB, h2]
        · rcases ih ys with h | h
          · left; simp [lexLeB, h1, h2, h]
          · right; simp [lexLeB, h1, h2, h]

theorem lexLeB_trans (a : List Char) :
    ∀ b c, lexLeB a b = true → lexLeB b c = true → lexLeB a c = true := by
  induction a with
  | nil => intro b c _ _; rfl
  | cons x xs ih =>
    intro b c hab hbc
    cases b with
    | nil => simp [lexLeB] at hab
    | cons y ys =>
      cases c with
      | nil => simp [lexLeB] at hbc
      | cons z zs =>
        simp only [lexLeB] at hab hbc ⊢
        by_cases h1 : x.toNat < y.toNat <;> by_cases h2 : y.toNat < z.toNat <;>
          by_cases h3 : y.toNat < x.toNat <;> by_cases h4 : z.toNat < y.toNat <;>
          simp [h1, h2, h3, h4] at hab hbc ⊢ <;> try omega
        all_goals
          have hxz : ¬ x.toNat < z.toNat := by omega
          have hzx : ¬ z.toNat < x.toNat := by omega
          exact Or.inr ⟨by omega, ih ys zs hab hbc⟩

instance : IsTotal String pathLe :=
  ⟨fun a b => lexLeB_total a.data b.data⟩

instance : IsTrans String pathLe :=
  ⟨fun a b c => lexLeB_trans a.data b.data c.data⟩

/-- Source: the loop body of `App::get_sound_files`: an entry contributes
its path when `file_type()` succeeded with a regular file and the
extension passes the audio filter. -/
def soundEntry (e : DirEntry) : Option String :=
  match e.fileType with
  | some true =>
    match rustExtension e.name with
    | some ext => if isAudioExt ext then some (entryPath e) else none
    | none => none
  | _ => none

/-- Source: `App::get_sound_files` in `src/app.rs`: scan the direct
entries of `sounds/`, keep regular files whose extension is an audio
extension, sort, return; a failed `read_dir` yields the empty list. -/
def get_sound_files (fs : FsState) : List String :=
  match fs with
  | none => []
  | some entries =>
    let sound_files := entries.filterMap soundEntry
    sound_files.insertionSort pathLe

/-- Source: the `max_items` computation inside the `Down` arm of
`App::handle_menu_key_event` in `src/app.rs`. -/
def max_items (fs : FsState) (ms : MenuState) : Nat :=
  match ms with
  | MenuState.MainMenu => 4
  | MenuState.SelectWorkDuration => DURATION_PRESETS.length - 1
  | MenuState.SelectBreakDuration => DURATION_PRESETS.length - 1
  | MenuState.ExtendWorkSession => DURATION_PRESETS.length
  | MenuState.SelectSound =>
    let sound_count := (get_sound_files fs).length
    if sound_count > 0 then sound_count - 1 else 0
  | MenuState.None => 0

/-- Source: `App::handle_menu_selection` in `src/app.rs`. -/
def handle_menu_selection (fs : FsState) (a : App) : App :=
  match a.menu_state with
  | MenuState.MainMenu =>
    match a.menu_selection with
    | 0 => { a with menu_state := MenuState.SelectWorkDuration, menu_selection := 0 }
    | 1 => { a with menu_state := MenuState.SelectBreakDuration, menu_selection := 0 }
    | 2 => { a with pomo := toggle_auto_start a.pomo }
    | 3 => { a with menu_state := MenuState.SelectSound, menu_selection := 0 }
    | 4 => { a with menu_state := MenuState.None }
    | _ => a
  | MenuState.SelectWorkDuration =>
    if a.menu_selection < DURATION_PRESETS.length then
      { a with pomo := set_work_duration (DURATION_PRESETS.getD a.menu_selection 0) a.pomo,
               menu_state := MenuState.MainMenu,
               menu_selection := 0 }
    else a
  | MenuState.SelectBreakDuration =>
    if a.menu_selection < DURATION_PRESETS.length then
      { a with pomo := set_break_duration (DURATION_PRESETS.getD a.menu_selection 0) a.pomo,
               menu_state := MenuState.MainMenu,
               menu_selection := 0 }
    else a
  | MenuState.ExtendWorkSession =>
    if a.menu_selection < DURATION_PRESETS.length then
      { a with pomo := extend_work_session (DURATION_PRESETS.getD a.menu_selection 0) a.pomo,
               menu_state := MenuState.None }
    else
      { a with pomo := start_or_pause a.pomo,
               menu_state := MenuState.None }
  | MenuState.SelectSound =>
    let sound_files := get_sound_files fs
    if sound_files ≠ [] ∧ a.menu_selection < sound_files.length then
      { a with pomo := set_sound (sound_files.getD a.menu_selection "") a.pomo,
               menu_state := MenuState.MainMenu,
               menu_selection := 0 }
    else a
  | MenuState.None => a

/-- Source: `App::handle_menu_key_event` in `src/app.rs`. -/
def handle_menu_key_event (fs : FsState) (a : App) (k : KeyCode) : App :=
  match k with
  | KeyCode.Up =>
    if a.menu_selection > 0 then { a with menu_selection := a.menu_selection - 1 } else a
  | KeyCode.Down =>
    if a.menu_selection < max_items fs a.menu_state then
      { a with menu_selection := a.menu_selection + 1 }
    else a
  | KeyCode.Enter => handle_menu_selection fs a
  | KeyCode.Esc =>
    match a.menu_state with
    | MenuState.MainMenu => { a with menu_state := MenuState.None }
    | MenuState.SelectWorkDuration =>
      { a with menu_state := MenuState.MainMenu, menu_selection := 0 }
    | MenuState.SelectBreakDuration =>
      { a with menu_state := MenuState.MainMenu, menu_selection := 0 }
    | MenuState.SelectSound =>
      { a with menu_state := MenuState.MainMenu, menu_selection := 0 }
    | MenuState.ExtendWorkSession =>
      { a with pomo := start_or_pause a.pomo, menu_state := MenuState.None }
    | MenuState.None => a
  | _ => a

/-- Source: `App::handle_key_event` in `src/app.rs`. -/
def handle_key_event (fs : FsState) (a : App) (k : KeyCode) : App :=
  if a.menu_state ≠ MenuState.None then
    handle_menu_key_event fs a k
  else
    match k with
    | KeyCode.Char 's' => { a with pomo := start_or_pause a.pomo }
    | KeyCode.Char 'r' => { a with pomo := reset a.pomo }
    | KeyCode.Char 'c' => { a with menu_state := MenuState.MainMenu, menu_selection := 0 }
    | KeyCode.Esc => { a with exit := true }
    | KeyCode.Char 'q' => { a with exit := true }
    | _ => a

/-- Source: the event-dispatch arm of `App::run` in `src/app.rs`: a Key
event goes to `handle_key_event`; a Tick calls `check_and_switch`
unconditionally, and when it reports a work session ended the dispatcher
forces `menu_state = ExtendWorkSession` with `menu_selection = 0`. -/
def handleEvent (fs : FsState) (a : App) : Event → App
  | Event.Key k => handle_key_event fs a k
  | Event.Tick =>
    let r := check_and_switch a.pomo
    if r.2 then
      { a with pomo := r.1,
               menu_state := MenuState.ExtendWorkSession,
               menu_selection := 0 }
    else
      { a with pomo := r.1 }

/-! Concrete states used by the witnesses. -/

def pomoWorkEnd : Pomodoro :=
  { phase := PomodoroState.Work, run_state := RunState.Running,
    work_duration := (25, 0), break_duration := (5, 0),
    work_remaining := (0, 1), break_remaining := (5, 0),
    auto_start := false, sound_path := "bell.wav", no_sound := false }

def pomoBreakEnd : Pomodoro :=
  { phase := PomodoroState.Break, run_state := RunState.Running,
    work_duration := (25, 0), break_duration := (5, 0),
    work_remaining := (25, 0), break_remaining := (0, 1),
    auto_start := true, sound_path := "bell.wav", no_sound := false }

def appWorkEnd : App :=
  { pomo := pomoWorkEnd, exit := false, hide_image := false,
    menu_state := MenuState.MainMenu, menu_selection := 3 }

def pomoIdle : Pomodoro :=
  { phase := PomodoroState.Work, run_state := RunState.Paused,
    work_duration := (25, 0), break_duration := (5, 0),
    work_remaining := (25, 0), break_remaining := (5, 0),
    auto_start := false, sound_path := "bell.wav", no_sound := false }

def appIdleMenu : App :=
  { pomo := pomoIdle, exit := false, hide_image := false,
    menu_state := MenuState.SelectSound, menu_selection := 0 }

/-- C1: a Tick event is always routed to `check_and_switch` regardless of
menu state, and when a Running Work countdown reaches zero on that tick,
`check_and_switch` returns true with phase switched to Break and RunState
forced to Paused, and the dispatcher then sets
`menu_state = ExtendWorkSession` and `menu_selection = 0`, pre-empting
whatever menu was open. -/
theorem C1_tick_routing_and_preemption (fs : FsState) (a b : App)
    (hrun : a.pomo.run_state = RunState.Running)
    (hph : a.pomo.phase = PomodoroState.Work)
    (hz : decrementDuration a.pomo.work_remaining = (0, 0)) :
    (handleEvent fs b Event.Tick).pomo = (check_and_switch b.pomo).1 ∧
    (check_and_switch a.pomo).2 = true ∧
    (handleEvent fs a Event.Tick).pomo.phase = PomodoroState.Break ∧
    (handleEvent fs a Event.Tick).pomo.run_state = RunState.Paused ∧
    (handleEvent fs a Event.Tick).menu_state = MenuState.ExtendWorkSession ∧
    (handleEvent fs a Event.Tick).menu_selection = 0 := by
  have hcs : check_and_switch a.pomo =
      ({ a.pomo with work_remaining := (0, 0),
                     phase := PomodoroState.Break,
                     run_state := RunState.Paused }, true) := by
    simp [check_and_switch, hrun, hph, hz]
  refine ⟨?_, ?_, ?_, ?_, ?_, ?_⟩
  · cases h : (check_and_switch b.pomo).2 <;> simp [handleEvent, h]
  · rw [hcs]
  all_goals simp [handleEvent, hcs]

/-- C1 witness: routing holds for a paused app with a menu open, and the
work-session-ended transition fires on a concrete Running Work state with
one second remaining. -/
theorem C1_tick_routing_and_preemption_witness :
    (handleEvent none appIdleMenu Event.Tick).pomo =
      (check_and_switch appIdleMenu.pomo).1 ∧
    (check_and_switch appWorkEnd.pomo).2 = true ∧
    (handleEvent none appWorkEnd Event.Tick).pomo.phase = PomodoroState.Break ∧
    (handleEvent none appWorkEnd Event.Tick).pomo.run_state = RunState.Paused ∧
    (handleEvent none appWorkEnd Event.Tick).menu_state = MenuState.ExtendWorkSession ∧
    (handleEvent none appWorkEnd Event.Tick).menu_selection = 0 :=
  C1_tick_routing_and_preemption none appWorkEnd appIdleMenu (by decide) (by decide)
    (by decide)

/-- C3: when the active phase is Break and the timer Running, the
`check_and_switch` call on which `break_remaining` reaches zero resets
`break_remaining` to `break_duration`, switches phase to Work, resets
`work_remaining` to `work_duration`, sets RunState per `auto_start`, and
returns false. -/
theorem C3_break_completion (p : Pomodoro)
    (hrun : p.run_state = RunState.Running)
    (hph : p.phase = PomodoroState.Break)
    (hz : decrementDuration p.break_remaining = (0, 0)) :
    (check_and_switch p).1.break_remaining = p.break_duration ∧
    (check_and_switch p).1.phase = PomodoroState.Work ∧
    (check_and_switch p).1.work_remaining = p.work_duration ∧
    (check_and_switch p).1.run_state =
      (if p.auto_start then RunState.Running else RunState.Paused) ∧
    (check_and_switch p).2 = false := by
  simp [check_and_switch, hrun, hph, hz]

/-- C3 witness: a concrete Break state with one second remaining and
`auto_start = true` switches back to a Running Work phase. -/
theorem C3_break_completion_witness :
    (check_and_switch pomoBreakEnd).1.break_remaining = pomoBreakEnd.break_duration ∧
    (check_and_switch pomoBreakEnd).1.phase = PomodoroState.Work ∧
    (check_and_switch pomoBreakEnd).1.work_remaining = pomoBreakEnd.work_duration ∧
    (check_and_switch pomoBreakEnd).1.run_state =
      (if pomoBreakEnd.auto_start then RunState.Running else RunState.Paused) ∧
    (check_and_switch pomoBreakEnd).2 = false :=
  C3_break_completion pomoBreakEnd (by decide) (by decide) (by decide)

/-- An `Up` or `Down` key leaves the menu state unchanged and keeps the
selection within the saturating bound computed by `max_items`. -/
theorem updown_step_bound (fs : FsState) (a : App) (k : KeyCode)
    (hk : k = KeyCode.Up ∨ k = KeyCode.Down)
    (h : a.menu_selection ≤ max_items fs a.menu_state) :
    (handle_menu_key_event fs a k).menu_state = a.menu_state ∧
    (handle_menu_key_event fs a k).menu_selection ≤ max_items fs a.menu_state := by
  rcases hk with rfl | rfl
  · by_cases h0 : a.menu_selection > 0 <;> simp [handle_menu_key_event, h0] <;> omega
  · by_cases h0 : a.menu_selection < max_items fs a.menu_state <;>
      simp [handle_menu_key_event, h0] <;> omega

/-- C2: for every menu state and every sequence of Up and Down key events
starting within bounds, `menu_selection` stays within bounds: the menu
state never changes and the selection never exceeds the per-menu maximum
index, which realises MainMenu = 5 items, the duration menus = 11
presets, ExtendWorkSession = 12 entries, and SelectSound = the number of
discovered files or 1 placeholder. -/
theorem C2_menu_selection_bounds (fs : FsState) (a : App) (ks : List KeyCode)
    (hk : ∀ k ∈ ks, k = KeyCode.Up ∨ k = KeyCode.Down)
    (h : a.menu_selection ≤ max_items fs a.menu_state) :
    (ks.foldl (handle_menu_key_event fs) a).menu_state = a.menu_state ∧
    (ks.foldl (handle_menu_key_event fs) a).menu_selection ≤
      max_items fs a.menu_state ∧
    max_items fs MenuState.MainMenu = 5 - 1 ∧
    max_items fs MenuState.SelectWorkDuration = 11 - 1 ∧
    max_items fs MenuState.SelectBreakDuration = 11 - 1 ∧
    max_items fs MenuState.ExtendWorkSession = 12 - 1 ∧
    max_items fs MenuState.SelectSound = max (get_sound_files fs).length 1 - 1 := by
  have counts : max_items fs MenuState.MainMenu = 5 - 1 ∧
      max_items fs MenuState.SelectWorkDuration = 11 - 1 ∧
      max_items fs MenuState.SelectBreakDuration = 11 - 1 ∧
      max_items fs MenuState.ExtendWorkSession = 12 - 1 ∧
      max_items fs MenuState.SelectSound = max (get_sound_files fs).length 1 - 1 := by
    refine ⟨rfl, rfl, rfl, rfl, ?_⟩
    simp only [max_items]
    split <;> omega
  have main : ∀ ks : List KeyCode, ∀ a : App,
      (∀ k ∈ ks, k = KeyCode.Up ∨ k = KeyCode.Down) →
      a.menu_selection ≤ max_items fs a.menu_state →
      (ks.foldl (handle_menu_key_event fs) a).menu_state = a.menu_state ∧
      (ks.foldl (handle_menu_key_event fs) a).menu_selection ≤
        max_items fs a.menu_state := by
    intro ks
    induction ks with
    | nil => intro a _ ha; exact ⟨rfl, ha⟩
    | cons k ks ih =>
      intro a hks ha
      have hstep := updown_step_bound fs a k (hks k (List.mem_cons_self k ks)) ha
      have hrest := ih (handle_menu_key_event fs a k)
        (fun k' hk' => hks k' (List.mem_cons_of_mem k hk'))
        (by rw [hstep.1]; exact hstep.2)
      simp only [List.foldl_cons]
      refine ⟨by rw [hrest.1, hstep.1], ?_⟩
      exact hrest.2.trans (le_of_eq (by rw [hstep.1]))
  exact ⟨(main ks a hk h).1, (main ks a hk h).2, counts⟩

/-- C2 witness: a concrete Down/Down/Up/Down sequence from the main menu
stays within bounds. -/
theorem C2_menu_selection_bounds_witness :
    (([KeyCode.Down, KeyCode.Down, KeyCode.Up, KeyCode.Down].foldl
        (handle_menu_key_event none) appWorkEnd).menu_state =
      appWorkEnd.menu_state) ∧
    (([KeyCode.Down, KeyCode.Down, KeyCode.Up, KeyCode.Down].foldl
        (handle_menu_key_event none) appWorkEnd).menu_selection ≤
      max_items none appWorkEnd.menu_state) ∧
    max_items none MenuState.MainMenu = 5 - 1 ∧
    max_items none MenuState.SelectWorkDuration = 11 - 1 ∧
    max_items none MenuState.SelectBreakDuration = 11 - 1 ∧
    max_items none MenuState.ExtendWorkSession = 12 - 1 ∧
    max_items none MenuState.SelectSound = max (get_sound_files none).length 1 - 1 :=
  C2_menu_selection_bounds none appWorkEnd
    [KeyCode.Down, KeyCode.Down, KeyCode.Up, KeyCode.Down]
    (by decide) (by decide)

def appExtend2 : App :=
  { pomo := { pomoIdle with phase := PomodoroState.Break,
                            work_remaining := (0, 0) },
    exit := false, hide_image := false,
    menu_state := MenuState.ExtendWorkSession, menu_selection := 2 }

/-- C4: pressing Enter in the ExtendWorkSession menu with a selection below
11 applies `extend_work_session` with the indexed preset (phase Work,
`work_remaining = (preset, 0)`, RunState Running) and closes the menu; the
final entry (index 11) calls `start_or_pause` and closes the menu. -/
theorem C4_extend_session_enter (fs : FsState) (a : App)
    (h : a.menu_state = MenuState.ExtendWorkSession) :
    (a.menu_selection < 11 →
      (handle_menu_key_event fs a KeyCode.Enter).pomo =
        extend_work_session (DURATION_PRESETS.getD a.menu_selection 0) a.pomo ∧
      (handle_menu_key_event fs a KeyCode.Enter).pomo.phase = PomodoroState.Work ∧
      (handle_menu_key_event fs a KeyCode.Enter).pomo.work_remaining =
        (DURATION_PRESETS.getD a.menu_selection 0, 0) ∧
      (handle_menu_key_event fs a KeyCode.Enter).pomo.run_state = RunState.Running ∧
      (handle_menu_key_event fs a KeyCode.Enter).menu_state = MenuState.None) ∧
    (a.menu_selection = 11 →
      (handle_menu_key_event fs a KeyCode.Enter).pomo = start_or_pause a.pomo ∧
      (handle_menu_key_event fs a KeyCode.Enter).menu_state = MenuState.None) := by
  have hlen : DURATION_PRESETS.length = 11 := rfl
  constructor
  · intro hsel
    have hlt : a.menu_selection < DURATION_PRESETS.length := by omega
    simp [handle_menu_key_event, handle_menu_selection, h, hlt, extend_work_session]
  · intro hsel
    have hge : ¬ a.menu_selection < DURATION_PRESETS.length := by omega
    simp [handle_menu_key_event, handle_menu_selection, h, hge]

/-- C4 witness: selecting preset index 2 (4 minutes) in the extend menu
sets phase Work, `work_remaining = (4, 0)`, RunState Running, and closes
the menu. -/
theorem C4_extend_session_enter_witness :
    (handle_menu_key_event none appExtend2 KeyCode.Enter).pomo =
      extend_work_session (DURATION_PRESETS.getD appExtend2.menu_selection 0)
        appExtend2.pomo ∧
    (handle_menu_key_event none appExtend2 KeyCode.Enter).pomo.phase =
      PomodoroState.Work ∧
    (handle_menu_key_event none appExtend2 KeyCode.Enter).pomo.work_remaining =
      (DURATION_PRESETS.getD appExtend2.menu_selection 0, 0) ∧
    (handle_menu_key_event none appExtend2 KeyCode.Enter).pomo.run_state =
      RunState.Running ∧
    (handle_menu_key_event none appExtend2 KeyCode.Enter).menu_state =
      MenuState.None :=
  (C4_extend_session_enter none appExtend2 (by decide)).1 (by decide)

/-- C5: Esc closes the MainMenu; from the three selection submenus it
returns to MainMenu with the selection reset to 0 and no other field
changed; from ExtendWorkSession it calls `start_or_pause` and closes the
menu. -/
theorem C5_esc_behavior (fs : FsState) (a : App) :
    (a.menu_state = MenuState.MainMenu →
      handle_menu_key_event fs a KeyCode.Esc = { a with menu_state := MenuState.None }) ∧
    ((a.menu_state = MenuState.SelectWorkDuration ∨
      a.menu_state = MenuState.SelectBreakDuration ∨
      a.menu_state = MenuState.SelectSound) →
      handle_menu_key_event fs a KeyCode.Esc =
        { a with menu_state := MenuState.MainMenu, menu_selection := 0 }) ∧
    (a.menu_state = MenuState.ExtendWorkSession →
      handle_menu_key_event fs a KeyCode.Esc =
        { a with pomo := start_or_pause a.pomo, menu_state := MenuState.None }) := by
  obtain ⟨p, e, hi, ms, sel⟩ := a
  refine ⟨?_, ?_, ?_⟩
  · intro h
    simp only at h
    subst h
    rfl
  · intro h
    rcases h with h | h | h <;> (simp only at h; subst h; rfl)
  · intro h
    simp only at h
    subst h
    rfl

/-- C5 witness: Esc from a concrete SelectSound state returns to MainMenu
with the selection reset and all other fields unchanged. -/
theorem C5_esc_behavior_witness :
    handle_menu_key_event none appIdleMenu KeyCode.Esc =
      { appIdleMenu with menu_state := MenuState.MainMenu, menu_selection := 0 } :=
  (C5_esc_behavior none appIdleMenu).2.1 (Or.inr (Or.inr rfl))

def appMainBack : App :=
  { pomo := pomoIdle, exit := false, hide_image := false,
    menu_state := MenuState.MainMenu, menu_selection := 4 }

/-- C6 counterexample: pressing Enter on MainMenu entry 4 ("Back") closes
the menu but leaves `menu_selection = 4`, so the selection is not reset
to 0 on the transition to None. -/
theorem C6_counterexample_close_keeps_selection :
    (handle_menu_key_event none appMainBack KeyCode.Enter).menu_state =
      MenuState.None ∧
    (handle_menu_key_event none appMainBack KeyCode.Enter).menu_selection = 4 := by
  constructor <;> rfl

/-- C6 (amended): Enter on MainMenu dispatches on the selection: 0 goes to
SelectWorkDuration, 1 to SelectBreakDuration, 2 toggles auto-start and
stays in MainMenu, 3 goes to SelectSound, 4 closes the menu;
`menu_selection` is reset to 0 on the transitions to the three submenus,
but is left unchanged when the menu closes (transition to None) and when
auto-start toggles. -/
theorem C6_mainmenu_enter_dispatch (fs : FsState) (a : App)
    (h : a.menu_state = MenuState.MainMenu) :
    (a.menu_selection = 0 → handle_menu_key_event fs a KeyCode.Enter =
      { a with menu_state := MenuState.SelectWorkDuration, menu_selection := 0 }) ∧
    (a.menu_selection = 1 → handle_menu_key_event fs a KeyCode.Enter =
      { a with menu_state := MenuState.SelectBreakDuration, menu_selection := 0 }) ∧
    (a.menu_selection = 2 → handle_menu_key_event fs a KeyCode.Enter =
      { a with pomo := toggle_auto_start a.pomo }) ∧
    (a.menu_selection = 3 → handle_menu_key_event fs a KeyCode.Enter =
      { a with menu_state := MenuState.SelectSound, menu_selection := 0 }) ∧
    (a.menu_selection = 4 → handle_menu_key_event fs a KeyCode.Enter =
      { a with menu_state := MenuState.None }) := by
  obtain ⟨p, e, hi, ms, sel⟩ := a
  simp only at h
  subst h
  refine ⟨?_, ?_, ?_, ?_, ?_⟩ <;>
    (intro hsel; simp only at hsel; subst hsel; rfl)

/-- C6 witness: Enter on entry 3 of a concrete MainMenu state opens the
SelectSound submenu with the selection reset to 0. -/
theorem C6_mainmenu_enter_dispatch_witness :
    handle_menu_key_event none appWorkEnd KeyCode.Enter =
      { appWorkEnd with menu_state := MenuState.SelectSound,
                        menu_selection := 0 } :=
  (C6_mainmenu_enter_dispatch none appWorkEnd (by decide)).2.2.2.1 (by decide)

/-- `handle_menu_selection` never touches the exit flag. -/
theorem handle_menu_selection_preserves_exit (fs : FsState) (a : App) :
    (handle_menu_selection fs a).exit = a.exit := by
  obtain ⟨p, e, hi, ms, sel⟩ := a
  cases ms <;> first
    | rfl
    | (unfold handle_menu_selection; dsimp only; split <;> rfl)

/-- `handle_menu_key_event` never touches the exit flag. -/
theorem handle_menu_key_event_preserves_exit (fs : FsState) (a : App) (k : KeyCode) :
    (handle_menu_key_event fs a k).exit = a.exit := by
  cases k with
  | Enter => exact handle_menu_selection_preserves_exit fs a
  | Up => unfold handle_menu_key_event; dsimp only; split <;> rfl
  | Down => unfold handle_menu_key_event; dsimp only; split <;> rfl
  | Esc =>
    obtain ⟨p, e, hi, ms, sel⟩ := a
    cases ms <;> rfl
  | Char c => rfl
  | Other => rfl

/-- C7: with no menu open, 's' toggles start/pause, 'r' resets, 'c' opens
the MainMenu at selection 0, and 'q' or Esc set the exit flag; while any
menu is open every key is routed to the menu handler and none of the
normal-mode hotkeys has its normal effect — in particular the exit flag
never changes, so 'q' cannot quit. -/
theorem C7_hotkey_routing (fs : FsState) (a : App) (k : KeyCode) :
    (a.menu_state = MenuState.None →
      handle_key_event fs a (KeyCode.Char 's') =
        { a with pomo := start_or_pause a.pomo } ∧
      handle_key_event fs a (KeyCode.Char 'r') = { a with pomo := reset a.pomo } ∧
      handle_key_event fs a (KeyCode.Char 'c') =
        { a with menu_state := MenuState.MainMenu, menu_selection := 0 } ∧
      handle_key_event fs a (KeyCode.Char 'q') = { a with exit := true } ∧
      handle_key_event fs a KeyCode.Esc = { a with exit := true }) ∧
    (a.menu_state ≠ MenuState.None →
      handle_key_event fs a k = handle_menu_key_event fs a k ∧
      (handle_key_event fs a k).exit = a.exit) := by
  constructor
  · intro h
    refine ⟨?_, ?_, ?_, ?_, ?_⟩ <;> simp [handle_key_event, h]
  · intro h
    have hroute : handle_key_event fs a k = handle_menu_key_event fs a k := by
      simp [handle_key_event, h]
    exact ⟨hroute, by
      rw [hroute]; exact handle_menu_key_event_preserves_exit fs a k⟩

/-- C7 witness: with the SelectSound menu open, the 'q' key is routed to
the menu handler and does not set the exit flag. -/
theorem C7_hotkey_routing_witness :
    handle_key_event none appIdleMenu (KeyCode.Char 'q') =
      handle_menu_key_event none appIdleMenu (KeyCode.Char 'q') ∧
    (handle_key_event none appIdleMenu (KeyCode.Char 'q')).exit =
      appIdleMenu.exit :=
  (C7_hotkey_routing none appIdleMenu (KeyCode.Char 'q')).2 (by decide)

def fsTwoSounds : FsState :=
  some [⟨"ding.wav", some true⟩, ⟨"bell.mp3", some true⟩,
        ⟨"readme.txt", some true⟩, ⟨"voices", some false⟩]

/-- C8: Enter in the SelectSound menu with a valid selection into the
freshly scanned sound list applies `set_sound` with the selected path and
returns to MainMenu at selection 0; with an empty list or an out-of-range
selection the event changes nothing at all. -/
theorem C8_select_sound_enter (fs : FsState) (a : App)
    (h : a.menu_state = MenuState.SelectSound) :
    (get_sound_files fs ≠ [] ∧ a.menu_selection < (get_sound_files fs).length →
      handle_menu_key_event fs a KeyCode.Enter =
        { a with pomo := set_sound ((get_sound_files fs).getD a.menu_selection "")
                   a.pomo,
                 menu_state := MenuState.MainMenu,
                 menu_selection := 0 }) ∧
    (¬(get_sound_files fs ≠ [] ∧ a.menu_selection < (get_sound_files fs).length) →
      handle_menu_key_event fs a KeyCode.Enter = a) := by
  obtain ⟨p, e, hi, ms, sel⟩ := a
  simp only at h
  subst h
  constructor
  · intro hv
    unfold handle_menu_key_event handle_menu_selection
    dsimp only
    rw [if_pos hv]
  · intro hv
    unfold handle_menu_key_event handle_menu_selection
    dsimp only
    rw [if_neg hv]

/-- C8 witness: on a directory holding `bell.mp3` and `ding.wav` (plus a
text file and a subdirectory), selecting index 0 sets the sound to
`sounds/bell.mp3` and returns to MainMenu. -/
theorem C8_select_sound_enter_witness :
    handle_menu_key_event fsTwoSounds appIdleMenu KeyCode.Enter =
      { appIdleMenu with
          pomo := set_sound
            ((get_sound_files fsTwoSounds).getD appIdleMenu.menu_selection "")
            appIdleMenu.pomo,
          menu_state := MenuState.MainMenu,
          menu_selection := 0 } :=
  (C8_select_sound_enter fsTwoSounds appIdleMenu (by decide)).1 (by decide)

/-- Characterisation of the entry filter of `get_sound_files`. -/
theorem soundEntry_eq_some (e : DirEntry) (p : String) :
    soundEntry e = some p ↔
      e.fileType = some true ∧
      (∃ ext, rustExtension e.name = some ext ∧ isAudioExt ext) ∧
      p = entryPath e := by
  obtain ⟨nm, ft⟩ := e
  unfold soundEntry
  cases ft with
  | none => simp
  | some b =>
    cases b with
    | false => simp
    | true =>
      cases hext : rustExtension nm with
      | none => simp [hext]
      | some ext =>
        by_cases ha : isAudioExt ext
        · simp [hext, ha, eq_comm]
        · simp [hext, ha]

/-- C9: sound discovery over any observed state of the `sounds/` directory
returns exactly the regular files whose extension is mp3, wav or ogg
case-insensitively, as paths under `sounds/`, sorted; a missing or
unreadable directory yields the empty list, and an empty result is the
only degradation (no error is raised anywhere). -/
theorem C9_sound_discovery (fs : FsState) :
    get_sound_files none = [] ∧
    List.Sorted pathLe (get_sound_files fs) ∧
    ∀ p, p ∈ get_sound_files fs ↔
      ∃ entries, fs = some entries ∧ ∃ e, e ∈ entries ∧
        e.fileType = some true ∧
        (∃ ext, rustExtension e.name = some ext ∧ isAudioExt ext) ∧
        p = entryPath e := by
  refine ⟨rfl, ?_, ?_⟩
  · cases fs with
    | none => exact List.sorted_nil
    | some entries => exact List.sorted_insertionSort _ _
  · intro p
    cases fs with
    | none => simp [get_sound_files]
    | some entries =>
      simp only [get_sound_files, List.mem_insertionSort, List.mem_filterMap,
        soundEntry_eq_some]
      constructor
      · rintro ⟨e, he, h1, h2, h3⟩
        exact ⟨entries, rfl, e, he, h1, h2, h3⟩
      · rintro ⟨entries2, heq, e, he, h⟩
        injection heq with heq
        subst heq
        exact ⟨e, he, h⟩

/-- `App::handle_menu_selection` with every array access performed through
a checked lookup: an out-of-range access would surface as `none`. The
guards are exactly those of the source. -/
def handle_menu_selection_checked (fs : FsState) (a : App) : Option App :=
  match a.menu_state with
  | MenuState.MainMenu =>
    match a.menu_selection with
    | 0 => some { a with menu_state := MenuState.SelectWorkDuration, menu_selection := 0 }
    | 1 => some { a with menu_state := MenuState.SelectBreakDuration, menu_selection := 0 }
    | 2 => some { a with pomo := toggle_auto_start a.pomo }
    | 3 => some { a with menu_state := MenuState.SelectSound, menu_selection := 0 }
    | 4 => some { a with menu_state := MenuState.None }
    | _ => some a
  | MenuState.SelectWorkDuration =>
    if a.menu_selection < DURATION_PRESETS.length then
      (DURATION_PRESETS[a.menu_selection]?).map (fun d =>
        { a with pomo := set_work_duration d a.pomo,
                 menu_state := MenuState.MainMenu, menu_selection := 0 })
    else some a
  | MenuState.SelectBreakDuration =>
    if a.menu_selection < DURATION_PRESETS.length then
      (DURATION_PRESETS[a.menu_selection]?).map (fun d =>
        { a with pomo := set_break_duration d a.pomo,
                 menu_state := MenuState.MainMenu, menu_selection := 0 })
    else some a
  | MenuState.ExtendWorkSession =>
    if a.menu_selection < DURATION_PRESETS.length then
      (DURATION_PRESETS[a.menu_selection]?).map (fun d =>
        { a with pomo := extend_work_session d a.pomo,
                 menu_state := MenuState.None })
    else some { a with pomo := start_or_pause a.pomo, menu_state := MenuState.None }
  | MenuState.SelectSound =>
    let sound_files := get_sound_files fs
    if sound_files ≠ [] ∧ a.menu_selection < sound_files.length then
      (sound_files[a.menu_selection]?).map (fun s =>
        { a with pomo := set_sound s a.pomo,
                 menu_state := MenuState.MainMenu, menu_selection := 0 })
    else some a
  | MenuState.None => some a

/-- `App::handle_menu_key_event` with checked array accesses. -/
def handle_menu_key_event_checked (fs : FsState) (a : App) (k : KeyCode) : Option App :=
  match k with
  | KeyCode.Up =>
    some (if a.menu_selection > 0 then
      { a with menu_selection := a.menu_selection - 1 } else a)
  | KeyCode.Down =>
    some (if a.menu_selection < max_items fs a.menu_state then
      { a with menu_selection := a.menu_selection + 1 } else a)
  | KeyCode.Enter => handle_menu_selection_checked fs a
  | KeyCode.Esc =>
    some (match a.menu_state with
      | MenuState.MainMenu => { a with menu_state := MenuState.None }
      | MenuState.SelectWorkDuration =>
        { a with menu_state := MenuState.MainMenu, menu_selection := 0 }
      | MenuState.SelectBreakDuration =>
        { a with menu_state := MenuState.MainMenu, menu_selection := 0 }
      | MenuState.SelectSound =>
        { a with menu_state := MenuState.MainMenu, menu_selection := 0 }
      | MenuState.ExtendWorkSession =>
        { a with pomo := start_or_pause a.pomo, menu_state := MenuState.None }
      | MenuState.None => a)
  | _ => some a

/-- Enter handling never performs an out-of-range access. -/
theorem handle_menu_selection_checked_eq (fs : FsState) (a : App) :
    handle_menu_selection_checked fs a = some (handle_menu_selection fs a) := by
  obtain ⟨p, e, hi, ms, sel⟩ := a
  cases ms with
  | MainMenu => rcases sel with _|_|_|_|_|n <;> rfl
  | SelectWorkDuration =>
    by_cases h : sel < DURATION_PRESETS.length <;>
      simp [handle_menu_selection_checked, handle_menu_selection, h,
        List.getElem?_eq_getElem]
  | SelectBreakDuration =>
    by_cases h : sel < DURATION_PRESETS.length <;>
      simp [handle_menu_selection_checked, handle_menu_selection, h,
        List.getElem?_eq_getElem]
  | ExtendWorkSession =>
    by_cases h : sel < DURATION_PRESETS.length <;>
      simp [handle_menu_selection_checked, handle_menu_selection, h,
        List.getElem?_eq_getElem]
  | SelectSound =>
    by_cases h : get_sound_files fs ≠ [] ∧ sel < (get_sound_files fs).length
    · simp [handle_menu_selection_checked, handle_menu_selection, h,
        List.getElem?_eq_getElem, h.2]
    · simp [handle_menu_selection_checked, handle_menu_selection, h]
  | None => rfl

/-- C10: no menu operation ever performs an out-of-range index access:
running the key handler with every `menu_selection`-driven array lookup
checked (into the 11 duration presets and into the freshly rescanned
sound-file list) never produces a lookup failure, for every filesystem
state, application state and key. -/
theorem C10_menu_handling_total (fs : FsState) (a : App) (k : KeyCode) :
    handle_menu_key_event_checked fs a k = some (handle_menu_key_event fs a k) := by
  cases k with
  | Enter => exact handle_menu_selection_checked_eq fs a
  | Esc =>
    obtain ⟨p, e, hi, ms, sel⟩ := a
    cases ms <;> rfl
  | Up => rfl
  | Down => rfl
  | Char c => rfl
  | Other => rfl
